import Mathlib

/-! gocuda: host-side binding layer over the CUDA driver API.

A shallow embedding of `cuda.go` (package `cu`).  The native driver, the C
allocator, the external compiler and the file system are inputs of the model:
every wrapper is a function of the answers those collaborators give, and it
returns, next to its Go result, the list of external actions it performed.
-/

namespace Gocuda

/-! ## Handles and status codes -/

/-- Status code of the driver (a C enumeration, seen by Go as an integer). -/
abbrev CUresult := Nat

/-- Modelled from the spec: the declaration of the status enumeration is not in
the sources.  The success code is the zero value of the C enumeration
(`CUDA_SUCCESS = 0` in the driver header); `Setup` compares against it. -/
def CUDA_SUCCESS : CUresult := 0

/-- Modelled from the spec: the declaration of the status enumeration is not in
the sources.  The "file not found" code of the driver header. -/
def CUDA_ERROR_FILE_NOT_FOUND : CUresult := 301

/-- A context handle: a C pointer, `0` is the nil handle. -/
abbrev CUcontext := Nat

/-- A module handle: a C pointer, `0` is the nil handle. -/
abbrev CUmodule := Nat

/-- A function handle. -/
abbrev CUfunction := Nat

/-- A stream handle: a C pointer, `0` is the nil handle. -/
abbrev CUstream := Nat

/-- A device-memory address, an unsigned 64-bit word. -/
abbrev CUdeviceptr := Nat

/-- A device ordinal, a C `int`. -/
abbrev CUdevice := Int

/-- A Go string, as the sequence of its characters.  The two bytes the path
functions look for, the slash and the dot, are one-byte characters, so a scan
over characters and a scan over bytes find the same places. -/
abbrev GoString := List Char

/-- Conversion of a Go `int` to the 32-bit C `int` behind `CUdevice`. -/
def toCUdevice (i : Int) : CUdevice :=
  (i + ((2 ^ 31 : Nat) : Int)) % ((2 ^ 32 : Nat) : Int) - ((2 ^ 31 : Nat) : Int)

/-- Dynamic type of the value held by an `interface` host operand: the three
pointer types the type switches name, a few of the types they do not name, the
nil interface, and `other` for any further type, told apart by a label. -/
inductive GoType
  | ptrInt
  | ptrFloat32
  | ptrFloat64
  | ptrInt32
  | ptrInt64
  | ptrUint8
  | sliceInt
  | sliceFloat32
  | unsafePointer
  | nilInterface
  | other (label : String)
deriving DecidableEq, Repr

/-- A host operand of a typed copy: its dynamic type and the address it holds. -/
structure HostOperand where
  dynType : GoType
  addr : Nat
deriving DecidableEq, Repr

/-- The arguments of one `cuLaunchKernel` call. -/
structure LaunchCall where
  f : CUfunction
  gridDimX : Nat
  gridDimY : Nat
  gridDimZ : Nat
  blockDimX : Nat
  blockDimY : Nat
  blockDimZ : Nat
  sharedMemBytes : Nat
  hStream : CUstream
  kernelParams : Nat
  extraArg : Nat
deriving DecidableEq, Repr

/-- An action on an external collaborator, in the order the wrapper performs it. -/
inductive Event
  | cuInit (flags : Nat)
  | cuCtxCreate (flags : Nat) (dev : CUdevice)
  | cuCtxDestroy (ctx : CUcontext)
  | cuMemGetInfo
  | cuMemcpyHtoD (dst : CUdeviceptr) (src : Nat) (byteCount : Nat)
  | cuMemcpyDtoH (dst : Nat) (src : CUdeviceptr) (byteCount : Nat)
  | cuMemcpyHtoDAsync (dst : CUdeviceptr) (src : Nat) (byteCount : Nat) (hStream : CUstream)
  | cuMemcpyDtoHAsync (dst : Nat) (src : CUdeviceptr) (byteCount : Nat) (hStream : CUstream)
  | cuLaunchKernel (call : LaunchCall)
  | cuModuleLoad (fname : GoString)
  | execRun (argv : List GoString)
  | osRemove (name : GoString)
  | println
deriving DecidableEq, Repr

/-- One block handed out by `malloc`: its address and the size asked for. -/
structure Block where
  base : Nat
  size : Nat
deriving DecidableEq, Repr

/-- The two scratch blocks of a launch. -/
inductive Region
  | kernelv
  | kernelp
deriving DecidableEq, Repr

/-- The memory of the process: the byte at each machine address. -/
abbrev Memory := Nat → Nat

/-- The scratch state of a launch: the two blocks, the memory of the process,
and the stores that were addressed outside the block of the pointer they were
made through, in program order, each with its distance from the start of that
block.  Such a store is still made, at its machine address. -/
structure Heap where
  kernelv : Block
  kernelp : Block
  mem : Memory
  outOfBounds : List (Region × Nat)

/-- The answers of the native driver, one field per boundary call used here.
The launch call reads its arguments through the pointer it is given, so its
answer may depend on the scratch memory at the moment of the call. -/
structure Driver where
  cuInit : Nat → CUresult
  cuCtxCreate : Nat → CUdevice → CUcontext × CUresult
  cuCtxDestroy : CUcontext → CUresult
  cuMemGetInfo : Nat × Nat × CUresult
  cuMemcpyHtoD : CUdeviceptr → Nat → Nat → CUresult
  cuMemcpyDtoH : Nat → CUdeviceptr → Nat → CUresult
  cuMemcpyHtoDAsync : CUdeviceptr → Nat → Nat → CUstream → CUresult
  cuMemcpyDtoHAsync : Nat → CUdeviceptr → Nat → CUstream → CUresult
  cuLaunchKernel : LaunchCall → Heap → CUresult
  cuModuleLoad : GoString → CUmodule × CUresult

/-! ## Device and context registry -/

/-- Modelled from the spec: the declaration of `CuDesc` is not in the sources;
`Setup` and `Teardown` use its one field `context`. -/
structure CuDesc where
  context : CUcontext
deriving DecidableEq, Repr

/-- The zero value of `CuDesc`, what a Go map yields for a missing key. -/
def CuDesc.zero : CuDesc := ⟨0⟩

/-- Modelled from the spec: the declaration of `cuDescMap` is not in the
sources; it is the process-wide map from a device slot to its descriptor, here
a list of bindings with at most one binding per key. -/
abbrev DescMap := List (CUdevice × CuDesc)

/-- Go `m[k]` as an rvalue, with the presence flag. -/
def mapLookup (m : DescMap) (k : CUdevice) : Option CuDesc :=
  (m.find? (fun p => p.1 == k)).map (fun p => p.2)

/-- Go `m[k]` as an rvalue: the zero value when the key is missing. -/
def mapIndex (m : DescMap) (k : CUdevice) : CuDesc :=
  (mapLookup m k).getD CuDesc.zero

/-- Go `delete(m, k)`. -/
def mapDelete (m : DescMap) (k : CUdevice) : DescMap :=
  m.filter (fun p => !(p.1 == k))

/-- Go `m[k] = v`. -/
def mapAssign (m : DescMap) (k : CUdevice) (v : CuDesc) : DescMap :=
  (k, v) :: mapDelete m k

/-- The process state the registry functions act on. -/
structure Proc where
  cuDescMap : DescMap
  events : List Event
deriving DecidableEq, Repr

/-- `Init`. -/
def Init (drv : Driver) (st : Proc) : CUresult × Proc :=
  (drv.cuInit 0, { st with events := st.events ++ [Event.cuInit 0] })

/-- `CtxCreate`. -/
def CtxCreate (drv : Driver) (flags : Nat) (dev : CUdevice) (st : Proc) :
    (CUcontext × CUresult) × Proc :=
  (drv.cuCtxCreate flags dev, { st with events := st.events ++ [Event.cuCtxCreate flags dev] })

/-- `CtxDestroy`. -/
def CtxDestroy (drv : Driver) (ctx : CUcontext) (st : Proc) : CUresult × Proc :=
  (drv.cuCtxDestroy ctx, { st with events := st.events ++ [Event.cuCtxDestroy ctx] })

/-- `Setup`: the descriptor is stored under the constant key `0`. -/
def Setup (drv : Driver) (deviceID : Int) (st : Proc) : CUresult × Proc :=
  let (status, st1) := Init drv st
  if status ≠ CUDA_SUCCESS then (status, st1)
  else
    let ((ctx, status), st2) := CtxCreate drv 0 (toCUdevice deviceID) st1
    let cudesc : CuDesc := { CuDesc.zero with context := ctx }
    (status, { st2 with cuDescMap := mapAssign st2.cuDescMap 0 cudesc })

/-- `Teardown`: the descriptor is read under the key `deviceID`, the key `0` is deleted. -/
def Teardown (drv : Driver) (deviceID : Int) (st : Proc) : CUresult × Proc :=
  let (status, st1) := CtxDestroy drv (mapIndex st.cuDescMap (toCUdevice deviceID)).context st
  (status, { st1 with cuDescMap := mapDelete st1.cuDescMap 0 })

/-! ## Memory manager -/

/-- Conversion to Go `uint32`. -/
def toUint32 (n : Nat) : Nat := n % 2 ^ 32

/-- `MemGetInfo`: the two 64-bit counts of the driver are converted to `uint32`. -/
def MemGetInfo (drv : Driver) : (Nat × Nat × CUresult) × List Event :=
  let (free, total, status) := drv.cuMemGetInfo
  ((toUint32 free, toUint32 total, status), [Event.cuMemGetInfo])

/-- `DeviceTotalMem` converts the 64-bit count of the driver to Go `int`, which
keeps every count below `2 ^ 63`. -/
def toGoInt (n : Nat) : Int :=
  ((n : Int) + ((2 ^ 63 : Nat) : Int)) % ((2 ^ 64 : Nat) : Int) - ((2 ^ 63 : Nat) : Int)

/-- `MemcpyHtoD`: a type switch over the host operand; `status` starts as the
zero value of the status type and the default case leaves it so. -/
def MemcpyHtoD (drv : Driver) (dstDevice : CUdeviceptr) (srcHost : HostOperand)
    (ByteCount : Nat) : CUresult × List Event :=
  let status : CUresult := 0
  match srcHost.dynType with
  | .ptrInt => (drv.cuMemcpyHtoD dstDevice srcHost.addr ByteCount,
      [Event.cuMemcpyHtoD dstDevice srcHost.addr ByteCount])
  | .ptrFloat32 => (drv.cuMemcpyHtoD dstDevice srcHost.addr ByteCount,
      [Event.cuMemcpyHtoD dstDevice srcHost.addr ByteCount])
  | .ptrFloat64 => (drv.cuMemcpyHtoD dstDevice srcHost.addr ByteCount,
      [Event.cuMemcpyHtoD dstDevice srcHost.addr ByteCount])
  | _ => (status, [])

/-- `MemcpyDtoH`. -/
def MemcpyDtoH (drv : Driver) (dstHost : HostOperand) (srcDevice : CUdeviceptr)
    (ByteCount : Nat) : CUresult × List Event :=
  let status : CUresult := 0
  match dstHost.dynType with
  | .ptrInt => (drv.cuMemcpyDtoH dstHost.addr srcDevice ByteCount,
      [Event.cuMemcpyDtoH dstHost.addr srcDevice ByteCount])
  | .ptrFloat32 => (drv.cuMemcpyDtoH dstHost.addr srcDevice ByteCount,
      [Event.cuMemcpyDtoH dstHost.addr srcDevice ByteCount])
  | .ptrFloat64 => (drv.cuMemcpyDtoH dstHost.addr srcDevice ByteCount,
      [Event.cuMemcpyDtoH dstHost.addr srcDevice ByteCount])
  | _ => (status, [])

/-- `MemcpyHtoDAsync`. -/
def MemcpyHtoDAsync (drv : Driver) (dstDevice : CUdeviceptr) (srcHost : HostOperand)
    (ByteCount : Nat) (hStream : CUstream) : CUresult × List Event :=
  let status : CUresult := 0
  match srcHost.dynType with
  | .ptrInt => (drv.cuMemcpyHtoDAsync dstDevice srcHost.addr ByteCount hStream,
      [Event.cuMemcpyHtoDAsync dstDevice srcHost.addr ByteCount hStream])
  | .ptrFloat32 => (drv.cuMemcpyHtoDAsync dstDevice srcHost.addr ByteCount hStream,
      [Event.cuMemcpyHtoDAsync dstDevice srcHost.addr ByteCount hStream])
  | .ptrFloat64 => (drv.cuMemcpyHtoDAsync dstDevice srcHost.addr ByteCount hStream,
      [Event.cuMemcpyHtoDAsync dstDevice srcHost.addr ByteCount hStream])
  | _ => (status, [])

/-- `MemcpyDtoHAsync`. -/
def MemcpyDtoHAsync (drv : Driver) (dstHost : HostOperand) (srcDevice : CUdeviceptr)
    (ByteCount : Nat) (hStream : CUstream) : CUresult × List Event :=
  let status : CUresult := 0
  match dstHost.dynType with
  | .ptrInt => (drv.cuMemcpyDtoHAsync dstHost.addr srcDevice ByteCount hStream,
      [Event.cuMemcpyDtoHAsync dstHost.addr srcDevice ByteCount hStream])
  | .ptrFloat32 => (drv.cuMemcpyDtoHAsync dstHost.addr srcDevice ByteCount hStream,
      [Event.cuMemcpyDtoHAsync dstHost.addr srcDevice ByteCount hStream])
  | .ptrFloat64 => (drv.cuMemcpyDtoHAsync dstHost.addr srcDevice ByteCount hStream,
      [Event.cuMemcpyDtoHAsync dstHost.addr srcDevice ByteCount hStream])
  | _ => (status, [])

/-- The dynamic types the type switches have a case for. -/
def supportedHost (t : GoType) : Bool :=
  match t with
  | .ptrInt => true
  | .ptrFloat32 => true
  | .ptrFloat64 => true
  | _ => false

/-! ## Kernel launch marshaler -/

/-- The value of `unsafe.Sizeof` for a pointer on the 64-bit target. -/
def ptrSize : Nat := 8

/-- Conversion of a Go `int` to `uintptr`. -/
def toUintptr (i : Int) : Nat := (i % ((2 ^ 64 : Nat) : Int)).toNat

/-- `offset`: `uintptr(ptr) + unsafe.Sizeof(ptr) * uintptr(i)`, in 64-bit arithmetic. -/
def offset (ptr : Nat) (i : Int) : Nat := (ptr + ptrSize * toUintptr i) % 2 ^ 64

/-- The size argument of the two `malloc` calls: `len * int(unsafe.Sizeof(kernelParams[0]))`
in Go `int`, converted to `size_t`. -/
def mallocSize (len : Nat) : Nat := (len * ptrSize) % 2 ^ 64

/-- Byte `k` of the little-endian image of a word. -/
def byteOf (v k : Nat) : Nat := v / 256 ^ k % 256

/-- Distance of an address from the start of a block, in 64-bit arithmetic. -/
def Block.offsetOf (b : Block) (addr : Nat) : Nat :=
  (addr % 2 ^ 64 + (2 ^ 64 - b.base % 2 ^ 64)) % 2 ^ 64

/-- An 8-byte access at machine address `addr` lies inside the block, which is
not the null block. -/
def Block.inBounds (b : Block) (addr : Nat) : Bool :=
  decide (b.base ≠ 0 ∧ b.base ≤ addr ∧ addr + 8 ≤ b.base + b.size)

/-- An 8-byte little-endian store at machine address `addr`. -/
def write64 (mem : Memory) (addr v : Nat) : Memory :=
  fun k => if addr ≤ k ∧ k < addr + 8 then byteOf v (k - addr) else mem k

/-- An 8-byte little-endian load at machine address `addr`. -/
def load64 (mem : Memory) (addr : Nat) : Nat :=
  mem addr + 256 * mem (addr + 1) + 256 ^ 2 * mem (addr + 2) + 256 ^ 3 * mem (addr + 3)
    + 256 ^ 4 * mem (addr + 4) + 256 ^ 5 * mem (addr + 5) + 256 ^ 6 * mem (addr + 6)
    + 256 ^ 7 * mem (addr + 7)

/-- The block of a region. -/
def Heap.block (h : Heap) (r : Region) : Block :=
  match r with
  | .kernelv => h.kernelv
  | .kernelp => h.kernelp

/-- An 8-byte store through a pointer derived from the block of region `r`.
The store is made at its machine address, whatever lies there; when that
address is outside the block the store is also logged as a violation. -/
def Heap.store64 (h : Heap) (r : Region) (addr v : Nat) : Heap :=
  { h with
    mem := write64 h.mem addr v
    outOfBounds :=
      if (h.block r).inBounds addr then h.outOfBounds
      else h.outOfBounds ++ [(r, (h.block r).offsetOf addr)] }

/-- Line 245, the pointer entry of index `i`:
`*((*unsafe.Pointer)(offset(kernelp, i))) = offset(kernelv, i)`. -/
def storePointer (h : Heap) (i : Nat) : Heap :=
  h.store64 .kernelp (offset h.kernelp.base i) (offset h.kernelv.base i)

/-- Line 246, the value slot of index `i`, for a non-nil `kernelParams[i]`
that refers to the word `w`: `*((*uint64)(offset(kernelv, i))) = w`. -/
def storeValue (h : Heap) (i : Nat) (w : CUdeviceptr) : Heap :=
  h.store64 .kernelv (offset h.kernelv.base i) w

/-- The packing loop `for i := range kernelParams`, from index `i` on.  An
entry is `none` for a nil pointer and `some w` for a pointer to the word `w`.
The result is the scratch state when the loop stops, and the index at which a
nil entry was dereferenced, if any: the pointer entry of that index has been
stored, the value slot has not. -/
def packLoop : Heap → Nat → List (Option CUdeviceptr) → Heap × Option Nat
  | h, _, [] => (h, none)
  | h, i, none :: _ => (storePointer h i, some i)
  | h, i, some w :: ps => packLoop (storeValue (storePointer h i) i w) (i + 1) ps

/-- The answers of the C allocator to the two `malloc` calls of a launch, and
the memory of the process at that moment. -/
structure Mallocs where
  kernelv : Nat
  kernelp : Nat
  mem : Memory

/-- How a call of `LaunchKernel` ends.
`launched`: the loop ran to its end with every store inside its block; the
driver launch was issued and its status returned, the deferred `free` calls
released the two blocks.
`nilDereference`: every store was inside its block and the loop stopped with
the Go panic of dereferencing the nil entry of index `i`; no driver call was
made, the deferred `free` calls ran.
`memoryFault`: some store fell outside its block; the scratch state is the one
the stores leave behind, and what the process does from there on is not
defined by the program. -/
inductive Outcome
  | launched (status : CUresult) (heap : Heap) (events : List Event) (freed : List Nat)
  | nilDereference (i : Nat) (heap : Heap) (freed : List Nat)
  | memoryFault (heap : Heap)

/-- The scratch state the packing loop leaves behind. -/
def Outcome.heap : Outcome → Heap
  | .launched _ h _ _ => h
  | .nilDereference _ h _ => h
  | .memoryFault h => h

/-- The driver calls of the run, where the program defines them. -/
def Outcome.events : Outcome → Option (List Event)
  | .launched _ _ ev _ => some ev
  | .nilDereference _ _ _ => some []
  | .memoryFault _ => none

/-- The status returned, when the call returns. -/
def Outcome.status : Outcome → Option CUresult
  | .launched s _ _ _ => some s
  | .nilDereference _ _ _ => none
  | .memoryFault _ => none

/-- `LaunchKernel`.  `kernelv` is sized by `len(kernelParams)`, `kernelp` by
`len(extra)`; the entries of `extra` are never read. -/
def LaunchKernel (drv : Driver) (m : Mallocs) (f : CUfunction)
    (gridDimX gridDimY gridDimZ blockDimX blockDimY blockDimZ shredMemBytes : Nat)
    (hStream : CUstream) (kernelParams extra : List (Option CUdeviceptr)) : Outcome :=
  let kernelv : Block := ⟨m.kernelv, mallocSize kernelParams.length⟩
  let kernelp : Block := ⟨m.kernelp, mallocSize extra.length⟩
  let packed := packLoop ⟨kernelv, kernelp, m.mem, []⟩ 0 kernelParams
  let call : LaunchCall := ⟨f, gridDimX, gridDimY, gridDimZ, blockDimX, blockDimY, blockDimZ,
    shredMemBytes, hStream, m.kernelp, 0⟩
  if packed.1.outOfBounds.isEmpty then
    match packed.2 with
    | some i => .nilDereference i packed.1 [m.kernelp, m.kernelv]
    | none =>
      .launched (drv.cuLaunchKernel call packed.1) packed.1 [Event.cuLaunchKernel call]
        [m.kernelp, m.kernelv]
  else .memoryFault packed.1

/-- Every entry of a parameter list is a non-nil pointer to a 64-bit word. -/
def validParams (ps : List (Option CUdeviceptr)) : Bool :=
  ps.all (fun p =>
    match p with
    | some w => decide (w < 2 ^ 64)
    | none => false)

/-- What the C allocator guarantees for two successful `malloc` calls of `8 * n`
and `8 * e` bytes: two non-null blocks inside the 64-bit address space that do
not overlap. -/
def mallocContract (m : Mallocs) (n e : Nat) : Bool :=
  decide (m.kernelv ≠ 0 ∧ m.kernelp ≠ 0 ∧ m.kernelv + 8 * n < 2 ^ 64 ∧
    m.kernelp + 8 * e < 2 ^ 64 ∧
    (m.kernelv + 8 * n ≤ m.kernelp ∨ m.kernelp + 8 * e ≤ m.kernelv))

/-! ## Module loader -/

/-- The answers of the operating system to `CreateModuleFromFile`: whether
running the compiler on the given argument vector returned an error, and
whether removing the named file returned an error. -/
structure Env where
  runErr : List GoString → Bool
  removeErr : GoString → Bool

/-- Scan for the last index of byte `c`: `i` is the index of the head of the
list, `last` the last index found so far. -/
def lastIndexFrom (c : Char) : List Char → Int → Int → Int
  | [], _, last => last
  | x :: xs, i, last => lastIndexFrom c xs (i + 1) (if x = c then i else last)

/-- Go `strings.LastIndex(s, "/")` for a one-byte separator: `-1` when absent. -/
def LastIndex (s : GoString) (c : Char) : Int := lastIndexFrom c s 0 (-1)

/-- Go `path.Split`: `path[:i+1], path[i+1:]` for `i` the last slash. -/
def Split (path : GoString) : GoString × GoString :=
  let i := LastIndex path '/'
  (path.take (i + 1).toNat, path.drop (i + 1).toNat)

/-- The loop of Go `path.Ext`, on the reversed path: `acc` is the part of the
path to the right of the scanned position. -/
def extScan : List Char → List Char → List Char
  | [], _ => []
  | c :: rest, acc =>
    if c = '/' then [] else if c = '.' then '.' :: acc else extScan rest (c :: acc)

/-- Go `path.Ext`: the suffix from the last dot of the last element, or empty. -/
def Ext (path : GoString) : GoString := extScan path.reverse []

/-- The suffix `".ptx"`. -/
def ptxSuffix : GoString := ['.', 'p', 't', 'x']

/-- The argument vector of `exec.Command("nvcc", "--ptx", file)`. -/
def nvccArgv (file : GoString) : List GoString :=
  [['n', 'v', 'c', 'c'], ['-', '-', 'p', 't', 'x'], file]

/-- `CreateModuleFromFile`. -/
def CreateModuleFromFile (drv : Driver) (env : Env) (file : GoString) :
    (CUmodule × CUresult) × List Event :=
  if env.runErr (nvccArgv file) then
    ((0, CUDA_ERROR_FILE_NOT_FOUND), [Event.execRun (nvccArgv file), Event.println])
  else
    let fileBase := (Split file).2
    let fileBase := fileBase.take (fileBase.length - (Ext fileBase).length)
    let (module, status) := drv.cuModuleLoad (fileBase ++ ptxSuffix)
    if env.removeErr (fileBase ++ ptxSuffix) then
      ((0, CUDA_ERROR_FILE_NOT_FOUND),
        [Event.execRun (nvccArgv file), Event.cuModuleLoad (fileBase ++ ptxSuffix),
          Event.osRemove (fileBase ++ ptxSuffix), Event.println])
    else
      ((module, status),
        [Event.execRun (nvccArgv file), Event.cuModuleLoad (fileBase ++ ptxSuffix),
          Event.osRemove (fileBase ++ ptxSuffix)])

/-- The name `CreateModuleFromFile` builds for the intermediate image:
`fileBase[:len(fileBase)-len(path.Ext(fileBase))] + ".ptx"`, for `fileBase`
the second component of `path.Split(file)`. -/
def ptxName (file : GoString) : GoString :=
  ((Split file).2.take ((Split file).2.length - (Ext (Split file).2).length)) ++ ptxSuffix

/-- Spec wording: `base` is the final element of `path`, the text after its last slash. -/
def IsFinalElement (path base : GoString) : Prop :=
  ∃ dir, path = dir ++ base ∧ '/' ∉ base ∧ (dir = [] ∨ dir.getLast? = some '/')

/-- Spec wording: `stem` is `base` with its last extension, the suffix that
starts at its final dot, removed; `base` itself when it has no dot. -/
def IsWithoutLastExt (base stem : GoString) : Prop :=
  ∃ ext, base = stem ++ ext ∧ ((ext = [] ∧ '.' ∉ base) ∨ ∃ rest, ext = '.' :: rest ∧ '.' ∉ rest)

/-- A driver that answers every call with the given status and null handles. -/
def constDriver (s : CUresult) : Driver where
  cuInit := fun _ => s
  cuCtxCreate := fun _ _ => (0, s)
  cuCtxDestroy := fun _ => s
  cuMemGetInfo := (0, 0, s)
  cuMemcpyHtoD := fun _ _ _ => s
  cuMemcpyDtoH := fun _ _ _ => s
  cuMemcpyHtoDAsync := fun _ _ _ _ => s
  cuMemcpyDtoHAsync := fun _ _ _ _ => s
  cuLaunchKernel := fun _ _ => s
  cuModuleLoad := fun _ => (0, s)

/-- A driver whose context creation succeeds with the handle `42`, which
destroys that context and answers "invalid value" for any other handle. -/
def stubDriver : Driver :=
  { constDriver 0 with
    cuCtxCreate := fun _ _ => (42, 0)
    cuCtxDestroy := fun c => if c = 42 then 0 else 1 }

/-- An environment in which the compiler fails. -/
def envCompilerFails : Env := ⟨fun _ => true, fun _ => false⟩

/-- An environment in which the compiler succeeds and removing any file fails. -/
def envNoArtifact : Env := ⟨fun _ => false, fun _ => true⟩

/-- An environment in which the compiler succeeds and removing the file succeeds. -/
def envOk : Env := ⟨fun _ => false, fun _ => false⟩

/-! ## Registry: `Setup` and `Teardown` -/

theorem mapDelete_absent (m : DescMap) (k : CUdevice) (h : mapLookup m k = none) :
    mapDelete m k = m := by
  induction m with
  | nil => rfl
  | cons p rest ih =>
    by_cases hk : p.1 = k
    · simp [mapLookup, hk] at h
    · have hrest : mapLookup rest k = none := by simpa [mapLookup, hk] using h
      have := ih hrest
      simp only [mapDelete] at this ⊢
      simp [hk, this]

/-- C3: evaluation at slot 1.  `Setup(1)` on an empty registry succeeds and
records the created context 42 under slot 0, slot 1 has no entry; the following
`Teardown(1)` hands the nil context, not 42, to `CtxDestroy`. -/
theorem Setup_Teardown_slot_one :
    (Setup stubDriver 1 ⟨[], []⟩).1 = CUDA_SUCCESS ∧
    (Setup stubDriver 1 ⟨[], []⟩).2.cuDescMap = [(0, ⟨42⟩)] ∧
    mapLookup (Setup stubDriver 1 ⟨[], []⟩).2.cuDescMap (toCUdevice 1) = none ∧
    (Teardown stubDriver 1 (Setup stubDriver 1 ⟨[], []⟩).2).2.events =
      [Event.cuInit 0, Event.cuCtxCreate 0 1, Event.cuCtxDestroy 0] := by
  decide

/-- C4: evaluation at a registry that holds slot 0, and a teardown of slot 1.
Slot 1 has no entry; `Teardown(1)` hands the nil context to `CtxDestroy`,
returns the error the driver answers, and removes the entry of slot 0. -/
theorem Teardown_unregistered_changes_registry :
    mapLookup [(0, ⟨42⟩)] (toCUdevice 1) = none ∧
    Teardown stubDriver 1 ⟨[(0, ⟨42⟩)], []⟩ = (1, ⟨[], [Event.cuCtxDestroy 0]⟩) := by
  decide

/-- When slot 0 has no entry either, `Teardown(d)` on a slot without entry
leaves the registry as it is; it hands the nil context to `CtxDestroy` and
returns the status of that call. -/
theorem Teardown_unregistered_slot_zero_free (drv : Driver) (d : Int) (st : Proc)
    (h : mapLookup st.cuDescMap (toCUdevice d) = none)
    (h0 : mapLookup st.cuDescMap 0 = none) :
    (Teardown drv d st).1 = drv.cuCtxDestroy 0 ∧
    (Teardown drv d st).2.cuDescMap = st.cuDescMap ∧
    (Teardown drv d st).2.events = st.events ++ [Event.cuCtxDestroy 0] := by
  have hidx : (mapIndex st.cuDescMap (toCUdevice d)).context = 0 := by
    simp [mapIndex, h, CuDesc.zero]
  refine ⟨?_, ?_, ?_⟩
  · simp [Teardown, CtxDestroy, hidx]
  · simpa [Teardown, CtxDestroy] using mapDelete_absent st.cuDescMap 0 h0
  · simp [Teardown, CtxDestroy, hidx]

/-! ## Memory manager -/

/-- C10: evaluation at a device with 6 GiB free of 8 GiB.  `MemGetInfo` returns
2147483648 and 0, the two counts modulo `2 ^ 32`, with the status of the driver;
the conversion to Go `int` that `DeviceTotalMem` applies keeps the count. -/
theorem MemGetInfo_truncates :
    (MemGetInfo { constDriver 0 with cuMemGetInfo := (6442450944, 8589934592, 0) }).1
      = (2147483648, 0, 0) ∧
    toGoInt 8589934592 = 8589934592 := by
  decide

/-- The two counts `MemGetInfo` returns are the counts of the driver modulo `2 ^ 32`. -/
theorem MemGetInfo_eq (drv : Driver) :
    (MemGetInfo drv).1 =
      (drv.cuMemGetInfo.1 % 2 ^ 32, drv.cuMemGetInfo.2.1 % 2 ^ 32, drv.cuMemGetInfo.2.2) := by
  simp [MemGetInfo, toUint32]

/-- C5, as stated, fails: for a host operand of dynamic type `*int32`, and a
driver that would answer every call with the error 1, `MemcpyHtoD` returns
`CUDA_SUCCESS`. -/
theorem MemcpyHtoD_unsupported_returns_success :
    supportedHost GoType.ptrInt32 = false ∧
    MemcpyHtoD (constDriver 1) 4096 ⟨GoType.ptrInt32, 8192⟩ 12 = (CUDA_SUCCESS, []) := by
  decide

/-- C5, amended: for a host operand whose dynamic type is none of `*int`,
`*float32`, `*float64`, each of the four typed copies issues no driver call and
returns `CUDA_SUCCESS`, the zero value of the status type. -/
theorem typed_copy_unsupported (drv : Driver) (dev : CUdeviceptr) (host : HostOperand)
    (ByteCount : Nat) (hStream : CUstream) (h : supportedHost host.dynType = false) :
    MemcpyHtoD drv dev host ByteCount = (CUDA_SUCCESS, []) ∧
    MemcpyDtoH drv host dev ByteCount = (CUDA_SUCCESS, []) ∧
    MemcpyHtoDAsync drv dev host ByteCount hStream = (CUDA_SUCCESS, []) ∧
    MemcpyDtoHAsync drv host dev ByteCount hStream = (CUDA_SUCCESS, []) := by
  obtain ⟨t, a⟩ := host
  cases t <;>
    simp_all [supportedHost, MemcpyHtoD, MemcpyDtoH, MemcpyHtoDAsync, MemcpyDtoHAsync,
      CUDA_SUCCESS]

theorem typed_copy_unsupported_witness :
    supportedHost (HostOperand.mk GoType.sliceInt 8192).dynType = false ∧
    MemcpyDtoHAsync (constDriver 1) ⟨GoType.sliceInt, 8192⟩ 4096 12 7 = (CUDA_SUCCESS, []) :=
  ⟨by decide, (typed_copy_unsupported (constDriver 1) 4096 ⟨GoType.sliceInt, 8192⟩ 12 7
    (by decide)).2.2.2⟩

/-- A typed copy of a supported host operand issues the driver call and returns its status. -/
theorem MemcpyHtoD_supported (drv : Driver) (dev : CUdeviceptr) (host : HostOperand)
    (ByteCount : Nat) (h : supportedHost host.dynType = true) :
    MemcpyHtoD drv dev host ByteCount =
      (drv.cuMemcpyHtoD dev host.addr ByteCount, [Event.cuMemcpyHtoD dev host.addr ByteCount]) := by
  obtain ⟨t, a⟩ := host
  cases t <;> simp_all [supportedHost, MemcpyHtoD]

/-! ## Module loader: failure paths -/

/-- C8: if running the compiler fails, or if removing the intermediate image
fails, `CreateModuleFromFile` returns the nil module with
`CUDA_ERROR_FILE_NOT_FOUND`; when the compiler fails, no module load and no
file removal is among the actions performed. -/
theorem CreateModuleFromFile_failure (drv : Driver) (env : Env) (file : GoString)
    (h : env.runErr (nvccArgv file) = true ∨ env.removeErr (ptxName file) = true) :
    (CreateModuleFromFile drv env file).1 = (0, CUDA_ERROR_FILE_NOT_FOUND) ∧
    (env.runErr (nvccArgv file) = true →
      (CreateModuleFromFile drv env file).2 = [Event.execRun (nvccArgv file), Event.println] ∧
      ∀ e ∈ (CreateModuleFromFile drv env file).2,
        (∀ name, e ≠ Event.cuModuleLoad name) ∧ (∀ name, e ≠ Event.osRemove name)) := by
  constructor
  · by_cases hrun : env.runErr (nvccArgv file) = true
    · simp [CreateModuleFromFile, hrun]
    · have hrm : env.removeErr (ptxName file) = true := h.resolve_left hrun
      simp only [ptxName] at hrm
      simp [CreateModuleFromFile, hrun, hrm]
  · intro hrun
    simp [CreateModuleFromFile, hrun]

theorem CreateModuleFromFile_failure_witness :
    (envCompilerFails.runErr (nvccArgv ['a', '.', 'c', 'u']) = true ∨
      envCompilerFails.removeErr (ptxName ['a', '.', 'c', 'u']) = true) ∧
    (CreateModuleFromFile stubDriver envCompilerFails ['a', '.', 'c', 'u']).1
      = (0, CUDA_ERROR_FILE_NOT_FOUND) ∧
    (envNoArtifact.runErr (nvccArgv ['a', '.', 'c', 'u']) = true ∨
      envNoArtifact.removeErr (ptxName ['a', '.', 'c', 'u']) = true) ∧
    (CreateModuleFromFile stubDriver envNoArtifact ['a', '.', 'c', 'u']).1
      = (0, CUDA_ERROR_FILE_NOT_FOUND) :=
  ⟨Or.inl rfl,
    (CreateModuleFromFile_failure stubDriver envCompilerFails ['a', '.', 'c', 'u'] (Or.inl rfl)).1,
    Or.inr rfl,
    (CreateModuleFromFile_failure stubDriver envNoArtifact ['a', '.', 'c', 'u'] (Or.inr rfl)).1⟩

/-! ## Module loader: the name of the intermediate image -/

theorem lastIndexFrom_absent (c : Char) (s : List Char) (i last : Int) (h : c ∉ s) :
    lastIndexFrom c s i last = last := by
  induction s generalizing i last with
  | nil => rfl
  | cons x xs ih =>
    have hx : x ≠ c := fun e => h (by simp [e])
    have hxs : c ∉ xs := fun e => h (by simp [e])
    simp [lastIndexFrom, hx, ih _ _ hxs]

theorem lastIndexFrom_present (c : Char) (s : List Char) (i last : Int) (h : c ∈ s) :
    ∃ pre post, s = pre ++ c :: post ∧ c ∉ post ∧
      lastIndexFrom c s i last = i + (pre.length : Int) := by
  induction s generalizing i last with
  | nil => simp at h
  | cons x xs ih =>
    by_cases hxs : c ∈ xs
    · obtain ⟨pre, post, hs, hpost, hidx⟩ := ih (i + 1) (if x = c then i else last) hxs
      refine ⟨x :: pre, post, by simp [hs], hpost, ?_⟩
      simp only [lastIndexFrom, hidx, List.length_cons]
      push_cast
      ring
    · have hx : x = c := by
        rcases List.mem_cons.1 h with e | e
        · exact e.symm
        · exact absurd e hxs
      refine ⟨[], xs, by simp [hx], hxs, ?_⟩
      simp [lastIndexFrom, hx, lastIndexFrom_absent c xs _ _ hxs]

theorem Split_spec (path : GoString) :
    path = (Split path).1 ++ (Split path).2 ∧ '/' ∉ (Split path).2 ∧
      ((Split path).1 = [] ∨ (Split path).1.getLast? = some '/') := by
  by_cases h : '/' ∈ path
  · obtain ⟨pre, post, hs, hpost, hidx⟩ := lastIndexFrom_present '/' path 0 (-1) h
    have hn : (LastIndex path '/' + 1).toNat = pre.length + 1 := by
      simp only [LastIndex, hidx]
      omega
    have h1 : (Split path).1 = pre ++ ['/'] := by
      simp only [Split, hn]
      rw [hs]
      simp [List.take_append_eq_append_take]
    have h2 : (Split path).2 = post := by
      simp only [Split, hn]
      rw [hs]
      simp [List.drop_append_eq_append_drop]
    rw [h1, h2]
    refine ⟨by simp [hs], hpost, Or.inr (by simp)⟩
  · have hidx : LastIndex path '/' = -1 := lastIndexFrom_absent '/' path 0 (-1) h
    have h1 : (Split path).1 = [] := by simp [Split, hidx]
    have h2 : (Split path).2 = path := by simp [Split, hidx]
    rw [h1, h2]
    exact ⟨by simp, h, Or.inl rfl⟩

theorem extScan_spec (r acc : List Char) (hslash : '/' ∉ r) (hacc : '.' ∉ acc) :
    ('.' ∉ r → extScan r acc = []) ∧
    ('.' ∈ r → ∃ pre rest, r.reverse ++ acc = pre ++ '.' :: rest ∧ '.' ∉ rest ∧
      extScan r acc = '.' :: rest) := by
  induction r generalizing acc with
  | nil => simp [extScan]
  | cons c rest ih =>
    have hc : c ≠ '/' := fun e => hslash (by simp [e])
    have hrest : '/' ∉ rest := fun e => hslash (by simp [e])
    by_cases hdot : c = '.'
    · constructor
      · intro hno
        exact absurd (by simp [hdot]) hno
      · intro _
        refine ⟨rest.reverse, acc, by simp [hdot], hacc, ?_⟩
        simp [extScan, hdot]
    · have hacc2 : '.' ∉ c :: acc := by
        intro e
        rcases List.mem_cons.1 e with e | e
        · exact hdot e.symm
        · exact hacc e
      obtain ⟨ih1, ih2⟩ := ih (c :: acc) hrest hacc2
      constructor
      · intro hno
        have hno2 : '.' ∉ rest := fun e => hno (by simp [e])
        simp [extScan, hc, hdot, ih1 hno2]
      · intro hmem
        have hmem2 : '.' ∈ rest := by
          rcases List.mem_cons.1 hmem with e | e
          · exact absurd e.symm hdot
          · exact e
        obtain ⟨pre, rest2, happ, hr2, hscan⟩ := ih2 hmem2
        refine ⟨pre, rest2, ?_, hr2, ?_⟩
        · rw [← happ]; simp
        · simp [extScan, hc, hdot, hscan]

theorem Ext_spec (base : GoString) (hslash : '/' ∉ base) :
    IsWithoutLastExt base (base.take (base.length - (Ext base).length)) := by
  have hslash2 : '/' ∉ base.reverse := by simpa using hslash
  obtain ⟨h1, h2⟩ := extScan_spec base.reverse [] hslash2 (by simp)
  by_cases hdot : '.' ∈ base
  · obtain ⟨pre, rest, happ, hrest, hscan⟩ := h2 (by simpa using hdot)
    have hbase : base = pre ++ '.' :: rest := by simpa using happ
    refine ⟨'.' :: rest, ?_, Or.inr ⟨rest, rfl, hrest⟩⟩
    have hext : Ext base = '.' :: rest := hscan
    rw [hext]
    have hlen : base.length - ('.' :: rest).length = pre.length := by
      rw [hbase]; simp
    rw [hlen]
    conv_lhs => rw [hbase]
    conv_rhs => rw [hbase]
    simp
  · have hext : Ext base = [] := h1 (by simpa using hdot)
    refine ⟨[], ?_, Or.inl ⟨rfl, hdot⟩⟩
    rw [hext]
    simp

/-- C9: when the compile step succeeds, the name `CreateModuleFromFile` hands
to the module load and the name it removes are one and the same string; it is
the final element of the source path, without its last extension, followed by
".ptx", and it holds no slash. -/
theorem CreateModuleFromFile_artifact (drv : Driver) (env : Env) (file : GoString)
    (h : env.runErr (nvccArgv file) = false) :
    ∃ base stem, IsFinalElement file base ∧ IsWithoutLastExt base stem ∧
      '/' ∉ stem ++ ptxSuffix ∧
      (CreateModuleFromFile drv env file).2.take 3 =
        [Event.execRun (nvccArgv file), Event.cuModuleLoad (stem ++ ptxSuffix),
          Event.osRemove (stem ++ ptxSuffix)] := by
  obtain ⟨hsplit, hslash, hdir⟩ := Split_spec file
  refine ⟨(Split file).2,
    (Split file).2.take ((Split file).2.length - (Ext (Split file).2).length),
    ⟨(Split file).1, hsplit, hslash, hdir⟩, Ext_spec _ hslash, ?_, ?_⟩
  · intro hmem
    rcases List.mem_append.1 hmem with e | e
    · exact hslash (List.mem_of_mem_take e)
    · revert e; decide
  · by_cases hrm : env.removeErr
        ((Split file).2.take ((Split file).2.length - (Ext (Split file).2).length) ++ ptxSuffix)
          = true
    · simp [CreateModuleFromFile, h, hrm]
    · simp [CreateModuleFromFile, h, hrm]

theorem CreateModuleFromFile_artifact_witness :
    envOk.runErr (nvccArgv "cu/kernel.cu".toList) = false ∧
    (CreateModuleFromFile stubDriver envOk "cu/kernel.cu".toList).2 =
      [Event.execRun (nvccArgv "cu/kernel.cu".toList), Event.cuModuleLoad "kernel.ptx".toList,
        Event.osRemove "kernel.ptx".toList] ∧
    ∃ base stem, IsFinalElement "cu/kernel.cu".toList base ∧ IsWithoutLastExt base stem ∧
      '/' ∉ stem ++ ptxSuffix ∧
      (CreateModuleFromFile stubDriver envOk "cu/kernel.cu".toList).2.take 3 =
        [Event.execRun (nvccArgv "cu/kernel.cu".toList), Event.cuModuleLoad (stem ++ ptxSuffix),
          Event.osRemove (stem ++ ptxSuffix)] :=
  ⟨rfl, by decide, CreateModuleFromFile_artifact stubDriver envOk "cu/kernel.cu".toList rfl⟩

/-! ## Kernel launch: the scratch buffers -/

theorem toUintptr_natCast (i : Nat) : toUintptr (i : Int) = i % 2 ^ 64 := by
  unfold toUintptr
  omega

theorem offset_natCast (ptr i : Nat) (h : ptr + 8 * i < 2 ^ 64) :
    offset ptr (i : Int) = ptr + 8 * i := by
  unfold offset
  rw [toUintptr_natCast]
  unfold ptrSize
  omega

theorem bytes_sum (w : Nat) (h : w < 2 ^ 64) :
    byteOf w 0 + 256 * byteOf w 1 + 256 ^ 2 * byteOf w 2 + 256 ^ 3 * byteOf w 3
      + 256 ^ 4 * byteOf w 4 + 256 ^ 5 * byteOf w 5 + 256 ^ 6 * byteOf w 6
      + 256 ^ 7 * byteOf w 7 = w := by
  unfold byteOf
  norm_num at h ⊢
  omega

theorem load64_write64_same (mem : Memory) (a w : Nat) (h : w < 2 ^ 64) :
    load64 (write64 mem a w) a = w := by
  have hs := bytes_sum w h
  simp only [load64, write64]
  simpa using hs

theorem load64_congr (m1 m2 : Memory) (a : Nat) (h : ∀ t, t < 8 → m1 (a + t) = m2 (a + t)) :
    load64 m1 a = load64 m2 a := by
  have h0 := h 0 (by omega)
  simp only [Nat.add_zero] at h0
  simp only [load64]
  rw [h0, h 1 (by omega), h 2 (by omega), h 3 (by omega), h 4 (by omega), h 5 (by omega),
    h 6 (by omega), h 7 (by omega)]

theorem load64_write64_disjoint (mem : Memory) (a b w : Nat) (h : a + 8 ≤ b ∨ b + 8 ≤ a) :
    load64 (write64 mem a w) b = load64 mem b := by
  apply load64_congr
  intro t ht
  have hno : ¬ (a ≤ b + t ∧ b + t < a + 8) := by omega
  simp [write64, hno]

theorem store64_inBounds (h : Heap) (r : Region) (addr v : Nat)
    (hin : (h.block r).base ≠ 0 ∧ (h.block r).base ≤ addr ∧
      addr + 8 ≤ (h.block r).base + (h.block r).size) :
    h.store64 r addr v = { h with mem := write64 h.mem addr v } := by
  simp [Heap.store64, Block.inBounds, hin]

theorem packLoop_safe (ps : List (Option CUdeviceptr)) (h : Heap) (i : Nat)
    (hv0 : h.kernelv.base ≠ 0) (hp0 : h.kernelp.base ≠ 0)
    (hvs : 8 * (i + ps.length) ≤ h.kernelv.size) (hps : 8 * (i + ps.length) ≤ h.kernelp.size)
    (hva : h.kernelv.base + h.kernelv.size < 2 ^ 64)
    (hpa : h.kernelp.base + h.kernelp.size < 2 ^ 64)
    (hdisj : h.kernelv.base + h.kernelv.size ≤ h.kernelp.base ∨
      h.kernelp.base + h.kernelp.size ≤ h.kernelv.base)
    (hvalid : ∀ p ∈ ps, ∃ w, p = some w ∧ w < 2 ^ 64) :
    (packLoop h i ps).2 = none ∧
    (packLoop h i ps).1.outOfBounds = h.outOfBounds ∧
    (packLoop h i ps).1.kernelv = h.kernelv ∧
    (packLoop h i ps).1.kernelp = h.kernelp ∧
    (∀ k, (k < h.kernelv.base + 8 * i ∨ h.kernelv.base + 8 * (i + ps.length) ≤ k) →
      (k < h.kernelp.base + 8 * i ∨ h.kernelp.base + 8 * (i + ps.length) ≤ k) →
      (packLoop h i ps).1.mem k = h.mem k) ∧
    (∀ j (hj : j < ps.length),
      some (load64 (packLoop h i ps).1.mem (h.kernelv.base + 8 * (i + j))) = ps.get ⟨j, hj⟩ ∧
      load64 (packLoop h i ps).1.mem (h.kernelp.base + 8 * (i + j))
        = h.kernelv.base + 8 * (i + j)) := by
  induction ps generalizing h i with
  | nil =>
    refine ⟨rfl, rfl, rfl, rfl, fun _ _ _ => rfl, ?_⟩
    intro j hj
    simp at hj
  | cons p ps ih =>
    simp only [List.length_cons] at hvs hps
    obtain ⟨w, hp, hw⟩ := hvalid p (by simp)
    subst hp
    have hvalid2 : ∀ q ∈ ps, ∃ w, q = some w ∧ w < 2 ^ 64 :=
      fun q hq => hvalid q (by simp [hq])
    have hoffp : offset h.kernelp.base (i : Int) = h.kernelp.base + 8 * i :=
      offset_natCast _ _ (by omega)
    have hoffv : offset h.kernelv.base (i : Int) = h.kernelv.base + 8 * i :=
      offset_natCast _ _ (by omega)
    have h1 : storePointer h i
        = { h with mem := write64 h.mem (h.kernelp.base + 8 * i) (h.kernelv.base + 8 * i) } := by
      unfold storePointer
      rw [hoffp, hoffv]
      exact store64_inBounds h Region.kernelp _ _ ⟨hp0, by simp [Heap.block], by
        simp only [Heap.block]; omega⟩
    have h2 : storeValue (storePointer h i) i w
        = { h with mem := write64 (write64 h.mem (h.kernelp.base + 8 * i)
            (h.kernelv.base + 8 * i)) (h.kernelv.base + 8 * i) w } := by
      rw [h1]
      unfold storeValue
      simp only [hoffv]
      exact store64_inBounds _ Region.kernelv _ _ ⟨hv0, by simp [Heap.block], by
        simp only [Heap.block]; omega⟩
    have hloop : packLoop h i (some w :: ps)
        = packLoop (storeValue (storePointer h i) i w) (i + 1) ps := rfl
    rw [hloop, h2]
    obtain ⟨ia, ib, ic, id, ie, ig⟩ := ih
      { h with mem := write64 (write64 h.mem (h.kernelp.base + 8 * i)
          (h.kernelv.base + 8 * i)) (h.kernelv.base + 8 * i) w }
      (i + 1) hv0 hp0 (by show _ ≤ h.kernelv.size; omega)
      (by show _ ≤ h.kernelp.size; omega) hva hpa hdisj hvalid2
    dsimp only at ia ib ic id ie ig
    refine ⟨ia, ib, ic, id, ?_, ?_⟩
    · intro k hkv hkp
      simp only [List.length_cons] at hkv hkp
      rw [ie k (by omega) (by omega)]
      have hno1 : ¬ (h.kernelv.base + 8 * i ≤ k ∧ k < h.kernelv.base + 8 * i + 8) := by omega
      have hno2 : ¬ (h.kernelp.base + 8 * i ≤ k ∧ k < h.kernelp.base + 8 * i + 8) := by omega
      simp [write64, hno1, hno2]
    · intro j hj
      cases j with
      | zero =>
        simp only [Nat.add_zero, List.get_cons_zero]
        constructor
        · rw [load64_congr _ _ _ (fun t ht => ie (h.kernelv.base + 8 * i + t) (by omega)
            (by omega))]
          rw [load64_write64_same _ _ _ hw]
          rfl
        · rw [load64_congr _ _ _ (fun t ht => ie (h.kernelp.base + 8 * i + t) (by omega)
            (by omega))]
          rw [load64_write64_disjoint _ _ _ _ (by omega)]
          exact load64_write64_same _ _ _ (by omega)
      | succ j =>
        simp only [List.length_cons] at hj
        have hrec := ig j (by omega)
        have he : i + (j + 1) = i + 1 + j := by omega
        rw [he]
        exact hrec

theorem validParams_spec (ps : List (Option CUdeviceptr)) (h : validParams ps = true) :
    ∀ p ∈ ps, ∃ w, p = some w ∧ w < 2 ^ 64 := by
  intro p hp
  have hall := List.all_eq_true.1 h p hp
  cases p with
  | none => simp at hall
  | some w => exact ⟨w, rfl, by simpa using hall⟩

/-- The packing of a memory-safe call: for a parameter list without nil entry
that is no longer than `extra`, with the two blocks as the allocator guarantees
them, the call ends in the driver launch; at that moment pointer entry `i`
holds the address of value slot `i` and value slot `i` holds the word of
parameter `i`. -/
theorem LaunchKernel_safe (drv : Driver) (m : Mallocs) (f : CUfunction)
    (gridDimX gridDimY gridDimZ blockDimX blockDimY blockDimZ shredMemBytes : Nat)
    (hStream : CUstream) (kernelParams extra : List (Option CUdeviceptr))
    (hvalid : validParams kernelParams = true) (hlen : kernelParams.length ≤ extra.length)
    (hm : mallocContract m kernelParams.length extra.length = true) :
    ∃ heap : Heap,
      LaunchKernel drv m f gridDimX gridDimY gridDimZ blockDimX blockDimY blockDimZ
        shredMemBytes hStream kernelParams extra
        = Outcome.launched
          (drv.cuLaunchKernel ⟨f, gridDimX, gridDimY, gridDimZ, blockDimX, blockDimY, blockDimZ,
            shredMemBytes, hStream, m.kernelp, 0⟩ heap) heap
          [Event.cuLaunchKernel ⟨f, gridDimX, gridDimY, gridDimZ, blockDimX, blockDimY,
            blockDimZ, shredMemBytes, hStream, m.kernelp, 0⟩]
          [m.kernelp, m.kernelv] ∧
      heap.kernelv = ⟨m.kernelv, 8 * kernelParams.length⟩ ∧
      heap.kernelp = ⟨m.kernelp, 8 * extra.length⟩ ∧
      heap.outOfBounds = [] ∧
      ∀ i (hi : i < kernelParams.length),
        load64 heap.mem (m.kernelp + 8 * i) = m.kernelv + 8 * i ∧
        some (load64 heap.mem (m.kernelv + 8 * i)) = kernelParams.get ⟨i, hi⟩ := by
  obtain ⟨hv0, hp0, hva, hpa, hdisj⟩ := of_decide_eq_true hm
  have hsv : mallocSize kernelParams.length = 8 * kernelParams.length := by
    unfold mallocSize ptrSize
    omega
  have hsp : mallocSize extra.length = 8 * extra.length := by
    unfold mallocSize ptrSize
    omega
  obtain ⟨ia, ib, ic, id, _, ig⟩ := packLoop_safe kernelParams
    ⟨⟨m.kernelv, mallocSize kernelParams.length⟩, ⟨m.kernelp, mallocSize extra.length⟩, m.mem, []⟩
    0 hv0 hp0 (by simp only [hsv]; omega) (by simp only [hsp]; omega)
    (by simp only [hsv]; omega) (by simp only [hsp]; omega)
    (by simp only [hsv, hsp]; omega) (validParams_spec kernelParams hvalid)
  simp only [] at ia ib ic id ig
  refine ⟨_, ?_, by rw [ic, hsv], by rw [id, hsp], ib, ?_⟩
  · simp only [LaunchKernel, ia, ib, List.isEmpty_nil, if_true]
  · intro i hi
    have := ig i hi
    simp only [Nat.zero_add] at this
    exact ⟨this.2, this.1⟩

/-- C1: evaluation at the launch of the example program, three parameters and a
nil `extra`.  The pointer buffer is asked for with 0 bytes, and the three
pointer stores of the packing loop, at byte offsets 0, 8 and 16 of that buffer,
all fall outside it. -/
theorem LaunchKernel_pointer_buffer_example :
    (LaunchKernel stubDriver ⟨4096, 8192, fun _ => 0⟩ 1 16 1 1 16 1 1 0 0
      [some 300, some 100, some 200] []).heap.kernelp.size = 0 ∧
    (LaunchKernel stubDriver ⟨4096, 8192, fun _ => 0⟩ 1 16 1 1 16 1 1 0 0
      [some 300, some 100, some 200] []).heap.outOfBounds
      = [(Region.kernelp, 0), (Region.kernelp, 8), (Region.kernelp, 16)] := by
  decide

/-- C2: evaluation at a launch with five parameters and a nil `extra`, where the
allocator hands out the empty pointer block 32 bytes below the value block.  The
value buffer is asked for with 40 bytes; the five pointer stores fall outside
the pointer block, and the one of index 4 lands on value slot 0: at the end of
the loop the 8 bytes at offset 0 of the value buffer hold 8224, the address of
slot 4, and not 1000, the word of parameter 0. -/
theorem LaunchKernel_value_slot_overwritten :
    validParams [some 1000, some 2000, some 3000, some 4000, some 5000] = true ∧
    mallocContract ⟨8192, 8160, fun _ => 0⟩ 5 0 = true ∧
    (LaunchKernel stubDriver ⟨8192, 8160, fun _ => 0⟩ 1 16 1 1 16 1 1 0 0
      [some 1000, some 2000, some 3000, some 4000, some 5000] []).heap.kernelv
      = ⟨8192, 40⟩ ∧
    (LaunchKernel stubDriver ⟨8192, 8160, fun _ => 0⟩ 1 16 1 1 16 1 1 0 0
      [some 1000, some 2000, some 3000, some 4000, some 5000] []).heap.outOfBounds
      = [(Region.kernelp, 0), (Region.kernelp, 8), (Region.kernelp, 16), (Region.kernelp, 24),
          (Region.kernelp, 32)] ∧
    load64 (LaunchKernel stubDriver ⟨8192, 8160, fun _ => 0⟩ 1 16 1 1 16 1 1 0 0
      [some 1000, some 2000, some 3000, some 4000, some 5000] []).heap.mem (8192 + 8 * 0)
      = 8224 := by
  decide

/-! ## Kernel launch: geometry and argument channels -/

/-- C6, as stated, fails: a launch with `gridDimX = 0` and no parameters issues
the driver launch call, with the zero passed on. -/
theorem LaunchKernel_zero_grid_is_launched :
    (LaunchKernel stubDriver ⟨4096, 8192, fun _ => 0⟩ 1 0 1 1 16 1 1 0 0 [] []).events
      = some [Event.cuLaunchKernel ⟨1, 0, 1, 1, 16, 1, 1, 0, 0, 8192, 0⟩] := by
  decide

/-- C6, amended: `LaunchKernel` makes no check of the geometry.  For a call
whose packing is memory-safe (no nil entry in `kernelParams`, `kernelParams` no
longer than `extra`, the two blocks as the allocator guarantees them) and for
all six dimensions, zero included, it issues exactly one driver launch call,
with the six dimensions passed on unchanged, and returns the status of that
call. -/
theorem LaunchKernel_passes_geometry (drv : Driver) (m : Mallocs) (f : CUfunction)
    (gridDimX gridDimY gridDimZ blockDimX blockDimY blockDimZ shredMemBytes : Nat)
    (hStream : CUstream) (kernelParams extra : List (Option CUdeviceptr))
    (hvalid : validParams kernelParams = true) (hlen : kernelParams.length ≤ extra.length)
    (hm : mallocContract m kernelParams.length extra.length = true) :
    (LaunchKernel drv m f gridDimX gridDimY gridDimZ blockDimX blockDimY blockDimZ
        shredMemBytes hStream kernelParams extra).events
      = some [Event.cuLaunchKernel ⟨f, gridDimX, gridDimY, gridDimZ, blockDimX, blockDimY,
          blockDimZ, shredMemBytes, hStream, m.kernelp, 0⟩] ∧
    (LaunchKernel drv m f gridDimX gridDimY gridDimZ blockDimX blockDimY blockDimZ
        shredMemBytes hStream kernelParams extra).status
      = some (drv.cuLaunchKernel ⟨f, gridDimX, gridDimY, gridDimZ, blockDimX, blockDimY,
          blockDimZ, shredMemBytes, hStream, m.kernelp, 0⟩
        (LaunchKernel drv m f gridDimX gridDimY gridDimZ blockDimX blockDimY blockDimZ
          shredMemBytes hStream kernelParams extra).heap) := by
  obtain ⟨heap, hL, _⟩ := LaunchKernel_safe drv m f gridDimX gridDimY gridDimZ blockDimX
    blockDimY blockDimZ shredMemBytes hStream kernelParams extra hvalid hlen hm
  rw [hL]
  exact ⟨rfl, rfl⟩

theorem LaunchKernel_passes_geometry_witness :
    validParams [some 300, some 100, some 200] = true ∧
    ([some 300, some 100, some 200] : List (Option CUdeviceptr)).length
      ≤ ([none, none, none] : List (Option CUdeviceptr)).length ∧
    mallocContract ⟨4096, 8192, fun _ => 0⟩ 3 3 = true ∧
    (LaunchKernel stubDriver ⟨4096, 8192, fun _ => 0⟩ 1 0 1 1 16 0 1 0 0
        [some 300, some 100, some 200] [none, none, none]).events
      = some [Event.cuLaunchKernel ⟨1, 0, 1, 1, 16, 0, 1, 0, 0, 8192, 0⟩] :=
  ⟨by decide, by decide, by decide,
    (LaunchKernel_passes_geometry stubDriver ⟨4096, 8192, fun _ => 0⟩ 1 0 1 1 16 0 1 0 0
      [some 300, some 100, some 200] [none, none, none] (by decide) (by decide) (by decide)).1⟩

/-- C7, as stated, fails: a launch with one entry in `kernelParams` and one in
`extra` issues the driver launch call, and the status it returns is the answer
of the driver to that call. -/
theorem LaunchKernel_both_channels_is_launched :
    (LaunchKernel stubDriver ⟨4096, 8192, fun _ => 0⟩ 1 16 1 1 16 1 1 0 0
        [some 100] [some 200]).events
      = some [Event.cuLaunchKernel ⟨1, 16, 1, 1, 16, 1, 1, 0, 0, 8192, 0⟩] ∧
    (LaunchKernel stubDriver ⟨4096, 8192, fun _ => 0⟩ 1 16 1 1 16 1 1 0 0
        [some 100] [some 200]).status
      = some (stubDriver.cuLaunchKernel ⟨1, 16, 1, 1, 16, 1, 1, 0, 0, 8192, 0⟩
        (LaunchKernel stubDriver ⟨4096, 8192, fun _ => 0⟩ 1 16 1 1 16 1 1 0 0
          [some 100] [some 200]).heap) := by
  decide

/-- C7, amended: `LaunchKernel` does not check the two argument channels against
each other.  For a call in which both lists are non-empty and whose packing is
memory-safe (no nil entry in `kernelParams`, `kernelParams` no longer than
`extra`, the two blocks as the allocator guarantees them) it issues exactly one
driver launch call and returns the status of that call.  The parameter
argument of the call is the pointer scratch buffer, which is built from
`kernelParams`: its entry `i` holds the address of value slot `i`, and that
slot holds the word of `kernelParams[i]`; the `extra` argument of the call is
nil. -/
theorem LaunchKernel_both_channels (drv : Driver) (m : Mallocs) (f : CUfunction)
    (gridDimX gridDimY gridDimZ blockDimX blockDimY blockDimZ shredMemBytes : Nat)
    (hStream : CUstream) (kernelParams extra : List (Option CUdeviceptr))
    (_hk : kernelParams ≠ []) (_he : extra ≠ [])
    (hvalid : validParams kernelParams = true) (hlen : kernelParams.length ≤ extra.length)
    (hm : mallocContract m kernelParams.length extra.length = true) :
    ∃ call : LaunchCall,
      (LaunchKernel drv m f gridDimX gridDimY gridDimZ blockDimX blockDimY blockDimZ
        shredMemBytes hStream kernelParams extra).events = some [Event.cuLaunchKernel call] ∧
      (LaunchKernel drv m f gridDimX gridDimY gridDimZ blockDimX blockDimY blockDimZ
        shredMemBytes hStream kernelParams extra).status
        = some (drv.cuLaunchKernel call
          (LaunchKernel drv m f gridDimX gridDimY gridDimZ blockDimX blockDimY blockDimZ
            shredMemBytes hStream kernelParams extra).heap) ∧
      call.kernelParams = m.kernelp ∧ call.extraArg = 0 ∧
      ∀ i (hi : i < kernelParams.length),
        load64 (LaunchKernel drv m f gridDimX gridDimY gridDimZ blockDimX blockDimY blockDimZ
          shredMemBytes hStream kernelParams extra).heap.mem (call.kernelParams + 8 * i)
          = m.kernelv + 8 * i ∧
        some (load64 (LaunchKernel drv m f gridDimX gridDimY gridDimZ blockDimX blockDimY
          blockDimZ shredMemBytes hStream kernelParams extra).heap.mem (m.kernelv + 8 * i))
          = kernelParams.get ⟨i, hi⟩ := by
  obtain ⟨heap, hL, _, _, _, hpack⟩ := LaunchKernel_safe drv m f gridDimX gridDimY gridDimZ
    blockDimX blockDimY blockDimZ shredMemBytes hStream kernelParams extra hvalid hlen hm
  rw [hL]
  exact ⟨_, rfl, rfl, rfl, rfl, hpack⟩

theorem LaunchKernel_both_channels_witness :
    ([some 100, some 101] : List (Option CUdeviceptr)) ≠ [] ∧
    ([some 200, none] : List (Option CUdeviceptr)) ≠ [] ∧
    validParams [some 100, some 101] = true ∧
    ([some 100, some 101] : List (Option CUdeviceptr)).length
      ≤ ([some 200, none] : List (Option CUdeviceptr)).length ∧
    mallocContract ⟨4096, 8192, fun _ => 0⟩ 2 2 = true ∧
    ∃ call : LaunchCall,
      (LaunchKernel stubDriver ⟨4096, 8192, fun _ => 0⟩ 1 16 1 1 16 1 1 0 0
        [some 100, some 101] [some 200, none]).events = some [Event.cuLaunchKernel call] ∧
      call.kernelParams = 8192 ∧ call.extraArg = 0 :=
  ⟨by decide, by decide, by decide, by decide, by decide,
    (LaunchKernel_both_channels stubDriver ⟨4096, 8192, fun _ => 0⟩ 1 16 1 1 16 1 1 0 0
      [some 100, some 101] [some 200, none] (by decide) (by decide) (by decide) (by decide)
      (by decide)).imp (fun _ h => ⟨h.1, h.2.2.1, h.2.2.2.1⟩)⟩

end Gocuda
